import Mathlib

/-!
Verification of the `form` library's date/time parsing engine.

The development shallowly embeds the repository's `time.js`
(`time.TimeParser`, `time.TimeParser.DIRECTIVE_PATTERNS`,
`time.TimeParser.prototype.parse`, `time.strptime`) and `strftime.js`
(`strftime`).

Modelling conventions:
* JavaScript numbers reached by this code are integers or `NaN`
  (`parseInt` results). They are embedded as `JSNum := Option Int`,
  with `none` standing for `NaN`; the comparison and arithmetic helpers
  mirror JavaScript semantics (`NaN < x`, `NaN > x`, `NaN == x` are all
  false, `NaN != x` is true, `NaN + x` is `NaN`, `%` is the truncating
  remainder).
* The compiled regular expression is embedded at the level of its
  abstract syntax: the pattern built by the constructor is a sequence of
  literal characters and capturing groups (`\d\d?`, `\d\d\d\d`, or an
  alternation of fixed words), anchored on both sides.  The matcher
  implements the backtracking search of the regex engine on exactly this
  fragment: group alternatives are tried in order (two digits before
  one, locale alternatives left to right) and the whole input must be
  consumed.  Literal characters are matched verbatim.  The
  `new RegExp("^" + pattern + "$")` step of the constructor is modelled
  by `TimeParser.construct`: the exact pattern text the constructor
  assembles is rebuilt by `regexSource`, and the `SyntaxError` of the
  `RegExp` constructor is raised whenever that text has unbalanced
  parentheses outside character classes and escapes — a condition that
  always makes ECMAScript regular-expression syntax invalid.  Other
  causes of invalidity (dangling quantifiers, unterminated classes,
  trailing backslash) and the altered match semantics of metacharacter
  literals are outside the model: `construct` may return a parser where
  the program throws, never the converse, and no theorem below asserts
  a successful construction outside the metacharacter-free fragment.
  Locale names containing metacharacters are likewise outside the model
  (the spec itself notes the unescaped interpolation as a latent
  defect).
* The ambient `ak.culture` locale object is passed explicitly as a
  `Culture` value; `ak_culture` is the library's default English culture.
* The `\s` character class is modelled by the ASCII whitespace
  characters plus NBSP, which covers every separator the claims touch.
-/

/-- A JavaScript number as produced by this code: an integer, or `NaN`
(represented by `none`). -/
abbrev JSNum := Option Int

/-- JavaScript `a < b` for a possibly-NaN left operand (`NaN < b` is false). -/
def jsLt (a : JSNum) (b : Int) : Bool :=
  match a with
  | none => false
  | some v => v < b

/-- JavaScript `a > b` for a possibly-NaN left operand (`NaN > b` is false). -/
def jsGt (a : JSNum) (b : Int) : Bool :=
  match a with
  | none => false
  | some v => b < v

/-- JavaScript `a == b` against an integer literal (`NaN == b` is false). -/
def jsEq (a : JSNum) (b : Int) : Bool :=
  match a with
  | none => false
  | some v => v = b

/-- JavaScript `a != b` against an integer literal (`NaN != b` is true). -/
def jsNe (a : JSNum) (b : Int) : Bool :=
  !(jsEq a b)

/-- JavaScript `a + b` for a possibly-NaN left operand. -/
def jsAdd (a : JSNum) (b : Int) : JSNum :=
  a.map (fun v => v + b)

/-- JavaScript `a % b`: the truncating remainder (sign of the dividend),
propagating `NaN`. -/
def jsMod (a : JSNum) (b : Int) : JSNum :=
  a.map (fun v => Int.tmod v b)

/-- JavaScript string conversion of a number, as used in the thrown error
messages (`"... " + value`). -/
def jsToString (a : JSNum) : String :=
  match a with
  | none => "NaN"
  | some v => toString v

/-- Decimal digit characters (`\d` of the generated patterns, and the
digits accepted by `parseInt(..., 10)`). -/
def isDecDigit (c : Char) : Bool :=
  '0' ≤ c && c ≤ '9'

/-- Value of a run of decimal digit characters. -/
def digitsVal : List Char → Nat → Nat
  | [], acc => acc
  | c :: cs, acc =>
    if isDecDigit c then digitsVal cs (acc * 10 + (c.toNat - '0'.toNat)) else acc

/-- Leading decimal digits of a character list, if any (JavaScript
`parseInt` stops at the first non-digit and yields `NaN` when there is
no leading digit). -/
def leadingDigits (l : List Char) : Option Nat :=
  match l with
  | c :: _ => if isDecDigit c then some (digitsVal (l.takeWhile isDecDigit) 0) else none
  | [] => none

/-- The `\s` whitespace characters used by the model: ASCII whitespace
plus the no-break space. -/
def isJsWS (c : Char) : Bool :=
  c = ' ' || c = '\t' || c = '\n' || c = '\r' || c = '\x0b' || c = '\x0c' || c.toNat = 160

/-- JavaScript `parseInt(s, 10)`: skip leading whitespace, read an
optional sign and the leading run of decimal digits; `NaN` (i.e. `none`)
when no digit follows. -/
def parseIntJS (s : String) : JSNum :=
  match s.toList.dropWhile isJsWS with
  | '-' :: rest => (leadingDigits rest).map (fun n => -(n : Int))
  | '+' :: rest => (leadingDigits rest).map (fun n => (n : Int))
  | rest => (leadingDigits rest).map (fun n => (n : Int))

/-- The locale table read from the ambient `ak.culture` object: full and
abbreviated month names, and the AM/PM markers. -/
structure Culture where
  months : List String
  shortMonths : List String
  am : String
  pm : String
deriving DecidableEq

/-- The library's default English culture (`ak.culture`), as exercised by
the repository's test-suite (`"October"`, `"Oct"`, `"AM"`, `"PM"`). -/
def ak_culture : Culture :=
  { months := ["January", "February", "March", "April", "May", "June", "July",
               "August", "September", "October", "November", "December"],
    shortMonths := ["Jan", "Feb", "Mar", "Apr", "May", "Jun", "Jul", "Aug",
                    "Sep", "Oct", "Nov", "Dec"],
    am := "AM",
    pm := "PM" }

/-!
Whitespace normalisation.

`time.TimeParser` starts with
`format = format.split(/(?:\s|%t|%n)+/).join(" ")`: every maximal run of
whitespace-equivalent separator tokens (a `\s` character, `%t`, or `%n`)
is replaced by a single space.  This is embedded as a two-stage pass:
first each separator token becomes one space (`sepToSpace`), then runs of
spaces are squeezed to a single space (`squeezeSpaces`).  The composition
replaces each maximal separator run by one space, exactly as
`split(...).join(" ")` does.
-/

/-- Replace each separator token (`\s` character, `%t`, `%n`) by a single
space, scanning left to right exactly as the regex engine does. -/
def sepToSpace : List Char → List Char
  | [] => []
  | '%' :: 't' :: rest => ' ' :: sepToSpace rest
  | '%' :: 'n' :: rest => ' ' :: sepToSpace rest
  | c :: cs => (if isJsWS c then ' ' else c) :: sepToSpace cs

/-- Squeeze runs of spaces down to a single space.  The flag records
whether the previous emitted character was (part of) a space run. -/
def squeezeAux : Bool → List Char → List Char
  | _, [] => []
  | afterSpace, c :: cs =>
    if c = ' ' then
      if afterSpace then squeezeAux true cs else ' ' :: squeezeAux true cs
    else c :: squeezeAux false cs

/-- `format.split(/(?:\s|%t|%n)+/).join(" ")`: collapse every maximal run
of whitespace-equivalent separators to a single space. -/
def normalizeWS (l : List Char) : List Char :=
  squeezeAux false (sepToSpace l)

/-!
The format compiler (`time.TimeParser` constructor).
-/

/-- A capturing sub-pattern emitted for one directive:
`(\d\d?)`, `(\d\d\d\d)`, or an alternation of fixed words such as
`(January|February|...)` or `(AM|PM)`. -/
inductive GroupPat where
  | digits12 : GroupPat
  | digits4 : GroupPat
  | oneOf : List String → GroupPat
deriving DecidableEq

/-- One element of the compiled pattern: a literal character or a
capturing group. -/
inductive Item where
  | lit : Char → Item
  | grp : GroupPat → Item
deriving DecidableEq

/-- `time.TimeParser.DIRECTIVE_PATTERNS`: the map from (collapsed)
directive codes to capturing sub-patterns.  `none` models a missing
table entry (the JavaScript lookup yielding `undefined`). -/
def DIRECTIVE_PATTERNS (L : Culture) (tok : String) : Option GroupPat :=
  if tok = "MMMM" then some (.oneOf L.months)
  else if tok = "MMM" then some (.oneOf L.shortMonths)
  else if tok = "tt" then some (.oneOf [L.am, L.pm])
  else if tok = "d" then some .digits12        -- day of month [1,31]
  else if tok = "H" then some .digits12        -- hour, 24-hour clock [0,23]
  else if tok = "h" then some .digits12        -- hour, 12-hour clock [1,12]
  else if tok = "M" then some .digits12        -- month [1,12]
  else if tok = "m" then some .digits12        -- minute [0,59]
  else if tok = "s" then some .digits12        -- second [0,59]
  else if tok = "yy" then some .digits12       -- year without century
  else if tok = "yyyy" then some .digits4      -- year with century
  else none

/-- The literal text `undefined`, as spliced into the pattern when a
scanner-matched token has no `DIRECTIVE_PATTERNS` entry (the callback
returns `undefined`, which `String.prototype.replace` stringifies). -/
def undefinedLits : List Item :=
  "undefined".toList.map Item.lit

/-- Handle one scanner-matched token `tok` (already collapsed): push it on
the expected list and splice its sub-pattern — or the literal text
`undefined` when the table lookup fails — in front of the rest. -/
def emitTok (L : Culture) (tok : String) (r : List Item × List String) :
    List Item × List String :=
  match DIRECTIVE_PATTERNS L tok with
  | some g => (Item.grp g :: r.1, tok :: r.2)
  | none => (undefinedLits ++ r.1, tok :: r.2)

/-- The scanner of the `TimeParser` constructor: the global replace over
`(d{1,4}|M{1,4}|yyyy|yy|HH|H|hh|h|mm|m|ss|s|tt)`.  Runs are matched
greedily (at most four `d`/`M`, `yyyy` before `yy`, `HH` before `H`,
etc.); a two-character token whose head is one of `MdHhms` is collapsed
to its single-letter form before the table lookup and the push onto the
expected list; characters that start no token are literal. -/
def compileScan (L : Culture) : List Char → List Item × List String
  | [] => ([], [])
  | c :: cs =>
    if c = 'd' then
      match cs with
      | 'd' :: 'd' :: 'd' :: rest => emitTok L "dddd" (compileScan L rest)
      | 'd' :: 'd' :: rest => emitTok L "ddd" (compileScan L rest)
      | 'd' :: rest => emitTok L "d" (compileScan L rest)   -- "dd" collapses to "d"
      | rest => emitTok L "d" (compileScan L rest)
    else if c = 'M' then
      match cs with
      | 'M' :: 'M' :: 'M' :: rest => emitTok L "MMMM" (compileScan L rest)
      | 'M' :: 'M' :: rest => emitTok L "MMM" (compileScan L rest)
      | 'M' :: rest => emitTok L "M" (compileScan L rest)   -- "MM" collapses to "M"
      | rest => emitTok L "M" (compileScan L rest)
    else if c = 'y' then
      match cs with
      | 'y' :: 'y' :: 'y' :: rest => emitTok L "yyyy" (compileScan L rest)
      | 'y' :: rest => emitTok L "yy" (compileScan L rest)
      | rest =>
        let r := compileScan L rest
        (Item.lit c :: r.1, r.2)                            -- a lone "y" is literal
    else if c = 'H' then
      match cs with
      | 'H' :: rest => emitTok L "H" (compileScan L rest)   -- "HH" collapses to "H"
      | rest => emitTok L "H" (compileScan L rest)
    else if c = 'h' then
      match cs with
      | 'h' :: rest => emitTok L "h" (compileScan L rest)   -- "hh" collapses to "h"
      | rest => emitTok L "h" (compileScan L rest)
    else if c = 'm' then
      match cs with
      | 'm' :: rest => emitTok L "m" (compileScan L rest)   -- "mm" collapses to "m"
      | rest => emitTok L "m" (compileScan L rest)
    else if c = 's' then
      match cs with
      | 's' :: rest => emitTok L "s" (compileScan L rest)   -- "ss" collapses to "s"
      | rest => emitTok L "s" (compileScan L rest)
    else if c = 't' then
      match cs with
      | 't' :: rest => emitTok L "tt" (compileScan L rest)
      | rest =>
        let r := compileScan L rest
        (Item.lit c :: r.1, r.2)                            -- a lone "t" is literal
    else
      let r := compileScan L cs
      (Item.lit c :: r.1, r.2)

/-- A compiled parser: the original format string, the generated pattern
(anchored `^...$`, held as its abstract syntax), and the expected
directive codes in match order. -/
structure TimeParser where
  format : String
  pattern : List Item
  expected : List String
deriving DecidableEq

/-- The string-building phase of the `time.TimeParser` constructor:
normalise whitespace, then scan the format for directives.  (The
constructor then compiles the assembled pattern text with
`new RegExp("^" + pattern + "$")` — see `TimeParser.construct`.) -/
def TimeParser.compile (L : Culture) (format : String) : TimeParser :=
  let scanned := compileScan L (normalizeWS format.toList)
  { format := format, pattern := scanned.1, expected := scanned.2 }

/-- The pattern-text fragment a `GroupPat` stands for: `(\d\d?)`,
`(\d\d\d\d)`, or `(` + the alternatives joined with `|` + `)`. -/
def GroupPat.source : GroupPat → List Char
  | .digits12 => "(\\d\\d?)".toList
  | .digits4 => "(\\d\\d\\d\\d)".toList
  | .oneOf alts => '(' :: (String.intercalate "|" alts).toList ++ [')']

/-- The pattern-text fragment an `Item` stands for: a literal character
stays itself (the constructor does not escape it). -/
def Item.source : Item → List Char
  | .lit c => [c]
  | .grp g => g.source

/-- The exact regular-expression source text the constructor hands to
`new RegExp`: `"^" + pattern + "$"`. -/
def regexSource (items : List Item) : List Char :=
  '^' :: (items.map Item.source).flatten ++ ['$']

/-- Parenthesis scan of regular-expression source text: an escape (`\`)
hides the next character, a character class (`[` up to the first
unescaped `]`) hides parentheses inside it, and otherwise `(` and `)`
must nest; the result is the open-group depth at the end, or `none` as
soon as an unmatched `)` appears. -/
def parensDepth : List Char → Nat → Bool → Option Nat
  | [], depth, _ => some depth
  | c :: rest, depth, inClass =>
    if c = '\\' then
      match rest with
      | _ :: rest' => parensDepth rest' depth inClass
      | [] => some depth
    else if inClass then
      if c = ']' then parensDepth rest depth false
      else parensDepth rest depth inClass
    else if c = '[' then parensDepth rest depth true
    else if c = '(' then parensDepth rest (depth + 1) false
    else if c = ')' then
      if depth = 0 then none else parensDepth rest (depth - 1) false
    else parensDepth rest depth false

/-- Balanced parentheses, the regular-expression well-formedness
condition this development tracks: a pattern whose parentheses (outside
classes and escapes) do not balance is never valid ECMAScript syntax. -/
def parensBalanced (l : List Char) : Bool :=
  match parensDepth l 0 false with
  | some 0 => true
  | _ => false

/-- The full `time.TimeParser` constructor including its
`new RegExp("^" + pattern + "$")` step: the `RegExp` constructor raises
a `SyntaxError` when the assembled pattern text is not valid
regular-expression syntax.  The model raises the error exactly when the
text's parentheses are unbalanced — always invalid syntax; patterns that
are invalid for other reasons are outside the model and return `ok`
here, so no theorem asserts a successful construction for them. -/
def TimeParser.construct (L : Culture) (format : String) : Except String TimeParser :=
  if parensBalanced (regexSource (TimeParser.compile L format).pattern) then
    .ok (TimeParser.compile L format)
  else .error "SyntaxError: Invalid regular expression"

/-!
The matcher: the regex engine on the generated pattern fragment.
-/

/-- Candidate `(capture, remaining input)` pairs for one capturing group
at the current position, in the order the regex engine tries them
(`\d\d?` prefers two digits; an alternation is tried left to right). -/
def matchGroup (g : GroupPat) (s : List Char) : List (List Char × List Char) :=
  match g with
  | .digits12 =>
    match s with
    | a :: b :: rest =>
      (if isDecDigit a && isDecDigit b then [([a, b], rest)] else []) ++
      (if isDecDigit a then [([a], b :: rest)] else [])
    | [a] => if isDecDigit a then [([a], [])] else []
    | [] => []
  | .digits4 =>
    match s with
    | a :: b :: c :: d :: rest =>
      if isDecDigit a && isDecDigit b && isDecDigit c && isDecDigit d then
        [([a, b, c, d], rest)]
      else []
    | _ => []
  | .oneOf alts =>
    alts.filterMap (fun alt =>
      if alt.toList.isPrefixOf s then some (alt.toList, s.drop alt.length) else none)

/-- Anchored backtracking match of the pattern against the input,
returning the list of captures (in group order) on success.  For a
group, the candidates are tried in order and the first one whose
continuation matches wins (`List.findSome?`), which is exactly the
backtracking regex search. -/
def matchItems : List Item → List Char → Option (List String)
  | [], [] => some []
  | [], _ :: _ => none
  | .lit _ :: _, [] => none
  | .lit c :: rest, x :: xs => if x = c then matchItems rest xs else none
  | .grp g :: rest, s =>
    (matchGroup g s).findSome?
      (fun p => (matchItems rest p.2).map (fun caps => String.mk p.1 :: caps))

/-!
The extractor (`time.TimeParser.prototype.parse`).
-/

/-- The capture-to-directive mapping: `data[this.expected[i-1]] = matches[i]`.
Assignment into a JavaScript object means a later binding for the same
key wins, so lookup returns the last binding.  (The pairing truncates at
the shorter list; the constructor never produces more capture groups
than expected codes.) -/
def getData : List (String × String) → String → Option String
  | [], _ => none
  | (k', v) :: rest, k =>
    match getData rest k with
    | some r => some r
    | none => if k' = k then some v else none

/-- `TimeParser.prototype._indexOf`: first index of `item` in `list`, or
`-1` when absent. -/
def _indexOf (item : String) : List String → Int
  | [] => -1
  | x :: xs =>
    if item = x then 0
    else
      let r := _indexOf item xs
      if r = -1 then -1 else r + 1

/-- Extract the year: a four-digit capture is used verbatim; a two-digit
capture is windowed (`< 68` → `2000 + y`, `< 100` → `1900 + y`); absent
year defaults to 1900. -/
def resolveYear (data : List (String × String)) : JSNum :=
  match getData data "yyyy" with
  | some s => parseIntJS s
  | none =>
    match getData data "yy" with
    | some s =>
      if jsLt (parseIntJS s) 68 then jsAdd (parseIntJS s) 2000
      else if jsLt (parseIntJS s) 100 then jsAdd (parseIntJS s) 1900
      else parseIntJS s
    | none => some 1900

/-- Extract the month: numeric directive (range-checked against [1,12])
first, then full month name, then abbreviated name (locale index + 1);
absent month defaults to 1. -/
def resolveMonth (L : Culture) (data : List (String × String)) : Except String JSNum :=
  match getData data "M" with
  | some s =>
    if jsLt (parseIntJS s) 1 || jsGt (parseIntJS s) 12 then
      .error ("Month is out of range: " ++ jsToString (parseIntJS s))
    else .ok (parseIntJS s)
  | none =>
    match getData data "MMMM" with
    | some s => .ok (some (_indexOf s L.months + 1))
    | none =>
      match getData data "MMM" with
      | some s => .ok (some (_indexOf s L.shortMonths + 1))
      | none => .ok (some 1)

/-- Extract the day of month, range-checked against [1,31]; absent day
defaults to 1. -/
def resolveDay (data : List (String × String)) : Except String JSNum :=
  match getData data "d" with
  | some s =>
    if jsLt (parseIntJS s) 1 || jsGt (parseIntJS s) 31 then
      .error ("Day is out of range: " ++ jsToString (parseIntJS s))
    else .ok (parseIntJS s)
  | none => .ok (some 1)

/-- The midnight special case of the 12-hour branch: a captured hour of
12 means 12 a.m., i.e. 0, before any meridiem adjustment. -/
def midnightAdjust (hour : JSNum) : JSNum :=
  if jsEq hour 12 then some 0 else hour

/-- Extract the hour: the 24-hour directive (checked against `> 23`) is
used directly when present; otherwise the 12-hour directive is checked
against [1,12], midnight-adjusted, and 12 is added when the captured
meridiem marker equals the locale's PM string; absent hour defaults
to 0. -/
def resolveHour (L : Culture) (data : List (String × String)) : Except String JSNum :=
  match getData data "H" with
  | some s =>
    if jsGt (parseIntJS s) 23 then
      .error ("Hour is out of range: " ++ jsToString (parseIntJS s))
    else .ok (parseIntJS s)
  | none =>
    match getData data "h" with
    | some s =>
      if jsLt (parseIntJS s) 1 || jsGt (parseIntJS s) 12 then
        .error ("Hour is out of range: " ++ jsToString (parseIntJS s))
      else
        match getData data "tt" with
        | some t =>
          if t = L.pm then .ok (jsAdd (midnightAdjust (parseIntJS s)) 12)
          else .ok (midnightAdjust (parseIntJS s))
        | none => .ok (midnightAdjust (parseIntJS s))
    | none => .ok (some 0)

/-- Extract the minute, checked against `> 59`; absent minute defaults
to 0. -/
def resolveMinute (data : List (String × String)) : Except String JSNum :=
  match getData data "m" with
  | some s =>
    if jsGt (parseIntJS s) 59 then
      .error ("Minute is out of range: " ++ jsToString (parseIntJS s))
    else .ok (parseIntJS s)
  | none => .ok (some 0)

/-- Extract the second, checked against `> 59`; absent second defaults
to 0. -/
def resolveSecond (data : List (String × String)) : Except String JSNum :=
  match getData data "s" with
  | some s =>
    if jsGt (parseIntJS s) 59 then
      .error ("Second is out of range: " ++ jsToString (parseIntJS s))
    else .ok (parseIntJS s)
  | none => .ok (some 0)

/-- The leap-year test of the final calendar check:
`year % 4 == 0 && year % 100 != 0 || year % 400 == 0` (`&&` binds
tighter than `||`). -/
def jsLeapYear (year : JSNum) : Bool :=
  (jsEq (jsMod year 4) 0 && jsNe (jsMod year 100) 0) || jsEq (jsMod year 400) 0

/-- The final calendar check of `parse`: months 4, 6, 9 and 11 reject a
day beyond 30; February rejects a day beyond 29 in a leap year and
beyond 28 otherwise. -/
def checkDayOfMonth (year month day : JSNum) : Except String Unit :=
  if ((jsEq month 4 || jsEq month 6 || jsEq month 9 || jsEq month 11) && jsGt day 30)
      ||
      (jsEq month 2 && jsGt day (if jsLeapYear year then 29 else 28)) then
    .error ("Day " ++ jsToString day ++ " is out of range for month " ++ jsToString month)
  else .ok ()

/-- The field-extraction phase of `parse`, applied to the collected
`data` mapping: resolve year, month, day, hour, minute and second in
source order (an out-of-range value aborts the whole extraction), finish
with the calendar check, and build the 9-element record
`[year, month, day, hour, minute, second, 0, 1, -1]`. -/
def extractFields (L : Culture) (data : List (String × String)) :
    Except String (List JSNum) :=
  match resolveMonth L data with
  | .error e => .error e
  | .ok month =>
    match resolveDay data with
    | .error e => .error e
    | .ok day =>
      match resolveHour L data with
      | .error e => .error e
      | .ok hour =>
        match resolveMinute data with
        | .error e => .error e
        | .ok minute =>
          match resolveSecond data with
          | .error e => .error e
          | .ok second =>
            match checkDayOfMonth (resolveYear data) month day with
            | .error e => .error e
            | .ok _ =>
              .ok [resolveYear data, month, day, hour, minute, second,
                   some 0, some 1, some (-1)]

/-- `time.TimeParser.prototype.parse`: match the input against the
compiled pattern (failing wholesale on no match), zip the captures with
the expected directive codes into the `data` mapping, then extract the
fields. -/
def TimeParser.parse (L : Culture) (tp : TimeParser) (input : String) :
    Except String (List JSNum) :=
  match matchItems tp.pattern input.toList with
  | none =>
    .error ("Time data did not match format: data=" ++ input ++ ", format=" ++ tp.format)
  | some caps => extractFields L (tp.expected.zip caps)

/-- `time.strptime(input, format)`. -/
def strptime (L : Culture) (input format : String) : Except String (List JSNum) :=
  (TimeParser.compile L format).parse L input

/-!
The formatter (`strftime.js`).
-/

/-- A calendar moment as observed through the `Date` getters used by
`strftime`: `getFullYear`, `getMonth` (zero-based), `getDate`,
`getHours`, `getMinutes`, `getSeconds`. -/
structure JSDate where
  fullYear : Int
  month0 : Nat
  date : Nat
  hours : Nat
  minutes : Nat
  seconds : Nat
deriving DecidableEq

/-- The `pad` helper of `strftime.js` with its default `"0"` padding:
prepend zeros until the string is at least `size` long. -/
def padStr (s : String) (size : Nat) : String :=
  String.mk (List.replicate (size - s.length) '0') ++ s

/-- The `\w` character class: ASCII letters, digits and underscore. -/
def isWordChar (c : Char) : Bool :=
  ('a' ≤ c && c ≤ 'z') || ('A' ≤ c && c ≤ 'Z') || ('0' ≤ c && c ≤ '9') || c = '_'

/-- The token stream produced by repeatedly exec-ing `/%\w|%%|./g` over
the format: `%` followed by a word character is a two-character token,
`%%` is a token, any other character matched by `.` is a one-character
token, and line terminators (matched by no alternative) are skipped. -/
def strfTokens : List Char → List String
  | [] => []
  | '%' :: c :: rest =>
    if isWordChar c then ("%" ++ String.mk [c]) :: strfTokens rest
    else if c = '%' then "%%" :: strfTokens rest
    else "%" :: strfTokens (c :: rest)
  | c :: rest =>
    if c = '\n' || c = '\r' then strfTokens rest
    else String.mk [c] :: strfTokens rest

/-- The `switch` of `strftime.js`: the six supported directives produce
zero-padded fields read from the date; every other token (including
`%%` and unrecognized `%x` tokens) falls through to the `default` case
and is echoed verbatim. -/
def strfPart (d : JSDate) (tok : String) : String :=
  if tok = "%d" then padStr (toString d.date) 2
  else if tok = "%H" then padStr (toString d.hours) 2
  else if tok = "%M" then padStr (toString d.minutes) 2
  else if tok = "%m" then padStr (toString (d.month0 + 1)) 2
  else if tok = "%S" then padStr (toString d.seconds) 2
  else if tok = "%Y" then toString d.fullYear
  else tok

/-- `strftime(date, format)`: map each token to its part and join with
the empty separator. -/
def strftime (d : JSDate) (format : String) : String :=
  String.join ((strfTokens format.toList).map (strfPart d))

/-!
Specification-side definitions, stated in the claims' own words and used
to compare the embedded code against the spec.
-/

/-- The claims' leap-year rule: `Y` divisible by 4 and (not divisible by
100 or divisible by 400). -/
def leapSpec (Y : Int) : Bool :=
  Y % 4 = 0 && (!(Y % 100 = 0) || Y % 400 = 0)

/-- The true length of month `M` in year `Y` as the claims state it:
months 4, 6, 9 and 11 have 30 days, February has 29 days exactly in leap
years and 28 otherwise, every other month number allows 31. -/
def daysInMonthSpec (Y M : Int) : Int :=
  if M = 4 ∨ M = 6 ∨ M = 9 ∨ M = 11 then 30
  else if M = 2 then (if leapSpec Y then 29 else 28)
  else 31

/-- A single whitespace-equivalent separator token of the normalisation
pass: a `\s` character, `%t`, or `%n`. -/
inductive SepTok : List Char → Prop where
  | ws (c : Char) : isJsWS c = true → SepTok [c]
  | pt : SepTok ['%', 't']
  | pn : SepTok ['%', 'n']

/-- A nonempty run of whitespace-equivalent separator tokens. -/
inductive SepRun : List Char → Prop where
  | single {t : List Char} : SepTok t → SepRun t
  | cons {t r : List Char} : SepTok t → SepRun r → SepRun (t ++ r)

theorem tmod_eq_zero_iff_emod (a n : Int) : Int.tmod a n = 0 ↔ a % n = 0 := by
  rw [← Int.dvd_iff_tmod_eq_zero, Int.dvd_iff_emod_eq_zero]

theorem jsLeapYear_some (Y : Int) : jsLeapYear (some Y) = leapSpec Y := by
  have h4 : Int.tmod Y 4 = 0 ↔ Y % 4 = 0 := tmod_eq_zero_iff_emod Y 4
  have h100 : Int.tmod Y 100 = 0 ↔ Y % 100 = 0 := tmod_eq_zero_iff_emod Y 100
  have h400 : Int.tmod Y 400 = 0 ↔ Y % 400 = 0 := tmod_eq_zero_iff_emod Y 400
  have himp : Y % 400 = 0 → Y % 4 = 0 := fun h =>
    Int.emod_eq_zero_of_dvd
      (dvd_trans ⟨100, by norm_num⟩ (Int.dvd_of_emod_eq_zero h))
  simp only [jsLeapYear, leapSpec, jsMod, jsEq, jsNe, Option.map_some']
  by_cases p4 : Y % 4 = 0 <;> by_cases p100 : Y % 100 = 0 <;> by_cases p400 : Y % 400 = 0 <;>
    simp_all

theorem jsLt_eq_false {d b : Int} (h : jsLt (some d) b = false) : b ≤ d := by
  simp only [jsLt, decide_eq_false_iff_not] at h
  omega

theorem jsGt_eq_false {d b : Int} (h : jsGt (some d) b = false) : d ≤ b := by
  simp only [jsGt, decide_eq_false_iff_not] at h
  omega

theorem bool_not_true {b : Bool} (h : ¬ b = true) : b = false := by
  cases b
  · rfl
  · exact absurd rfl h

theorem resolveDay_ok_bounds {data : List (String × String)} {x : JSNum} {d : Int}
    (h : resolveDay data = .ok x) (hx : x = some d) : 1 ≤ d ∧ d ≤ 31 := by
  subst hx
  unfold resolveDay at h
  split at h
  · split at h
    · exact absurd h (by simp)
    · next hcond =>
      injection h with h
      rw [h] at hcond
      have h1 : jsLt (some d) 1 = false := by
        cases hB : jsLt (some d) 1
        · rfl
        · exact absurd (by simp [hB]) hcond
      have h2 : jsGt (some d) 31 = false := by
        cases hB : jsGt (some d) 31
        · rfl
        · exact absurd (by simp [hB]) hcond
      exact ⟨jsLt_eq_false h1, jsGt_eq_false h2⟩
  · injection h with h
    injection h with h
    omega

theorem checkDayOfMonth_ok_cond {y mo d : JSNum}
    (h : checkDayOfMonth y mo d = .ok ()) :
    (((jsEq mo 4 || jsEq mo 6 || jsEq mo 9 || jsEq mo 11) && jsGt d 30)
      || (jsEq mo 2 && jsGt d (if jsLeapYear y then 29 else 28))) = false := by
  unfold checkDayOfMonth at h
  cases hB : (((jsEq mo 4 || jsEq mo 6 || jsEq mo 9 || jsEq mo 11) && jsGt d 30)
      || (jsEq mo 2 && jsGt d (if jsLeapYear y then 29 else 28)))
  · rfl
  · rw [hB] at h
    exact absurd h (by simp)

theorem checkDayOfMonth_ok {y mo d : JSNum} {M D : Int}
    (h : checkDayOfMonth y mo d = .ok ()) (hmo : mo = some M) (hd : d = some D) :
    ((M = 4 ∨ M = 6 ∨ M = 9 ∨ M = 11) → D ≤ 30) ∧
    (M = 2 → D ≤ (if jsLeapYear y then 29 else 28)) := by
  subst hmo hd
  have hc := checkDayOfMonth_ok_cond h
  constructor
  · intro hM
    refine jsGt_eq_false (bool_not_true ?_)
    intro hg
    have hA : (jsEq (some M) 4 || jsEq (some M) 6 || jsEq (some M) 9 ||
        jsEq (some M) 11) = true := by
      rcases hM with h | h | h | h <;> simp [jsEq, h]
    rw [hA, hg] at hc
    simp at hc
  · intro hM
    refine jsGt_eq_false (bool_not_true ?_)
    intro hg
    have hEq : jsEq (some M) 2 = true := by simp [jsEq, hM]
    rw [hEq, hg] at hc
    simp at hc

theorem extractFields_ok_inv {L : Culture} {data : List (String × String)}
    {t : List JSNum} (h : extractFields L data = .ok t) :
    ∃ month day hour minute second,
      resolveMonth L data = .ok month ∧
      resolveDay data = .ok day ∧
      resolveHour L data = .ok hour ∧
      resolveMinute data = .ok minute ∧
      resolveSecond data = .ok second ∧
      checkDayOfMonth (resolveYear data) month day = .ok () ∧
      t = [resolveYear data, month, day, hour, minute, second,
           some 0, some 1, some (-1)] := by
  unfold extractFields at h
  split at h
  · exact absurd h (by simp)
  next month hmo =>
    split at h
    · exact absurd h (by simp)
    next day hd =>
      split at h
      · exact absurd h (by simp)
      next hour hh =>
        split at h
        · exact absurd h (by simp)
        next minute hmi =>
          split at h
          · exact absurd h (by simp)
          next second hs =>
            split at h
            · exact absurd h (by simp)
            next u hchk =>
              injection h with h
              exact ⟨month, day, hour, minute, second, hmo, hd, hh, hmi, hs,
                     by rw [hchk], h.symm⟩

theorem parse_ok_inv {L : Culture} {tp : TimeParser} {input : String} {t : List JSNum}
    (h : TimeParser.parse L tp input = .ok t) :
    ∃ caps, matchItems tp.pattern input.toList = some caps ∧
      extractFields L (tp.expected.zip caps) = .ok t := by
  unfold TimeParser.parse at h
  split at h
  · exact absurd h (by simp)
  next caps hm => exact ⟨caps, hm, h⟩

/-- C1: for every compiled format and every input whose match resolves an
integer year `Y`, month `M` and day `D`, parse succeeds only if `D` does
not exceed the true length of month `M` in year `Y` (months 4, 6, 9, 11
allow at most 30 days; February allows 29 exactly in leap years, else
28; every month allows at most 31); the check runs after year, month and
day are all resolved, so `"2004-02-29"` and `"2000-02-29"` parse under a
year-month-day format, `"2200-02-29"` fails with a range error, and the
year may even be resolved after the day (`"dd-MM-yyyy"`). -/
theorem C1_final_calendar_check :
    (∀ (L : Culture) (tp : TimeParser) (input : String) (t : List JSNum) (Y M D : Int),
        TimeParser.parse L tp input = .ok t →
        t[0]? = some (some Y) → t[1]? = some (some M) → t[2]? = some (some D) →
        D ≤ daysInMonthSpec Y M) ∧
    strptime ak_culture "2004-02-29" "yyyy-MM-dd" =
      .ok [some 2004, some 2, some 29, some 0, some 0, some 0, some 0, some 1, some (-1)] ∧
    strptime ak_culture "2000-02-29" "yyyy-MM-dd" =
      .ok [some 2000, some 2, some 29, some 0, some 0, some 0, some 0, some 1, some (-1)] ∧
    strptime ak_culture "2200-02-29" "yyyy-MM-dd" =
      .error "Day 29 is out of range for month 2" ∧
    strptime ak_culture "29-02-2004" "dd-MM-yyyy" =
      .ok [some 2004, some 2, some 29, some 0, some 0, some 0, some 0, some 1, some (-1)] := by
  refine ⟨?_, rfl, rfl, rfl, rfl⟩
  intro L tp input t Y M D hp h0 h1 h2
  obtain ⟨caps, hm, hex⟩ := parse_ok_inv hp
  obtain ⟨month, day, hour, minute, second, hmo, hd, hh, hmi, hs, hchk, ht⟩ :=
    extractFields_ok_inv hex
  subst ht
  simp only [List.getElem?_cons_zero, List.getElem?_cons_succ, Option.some.injEq] at h0 h1 h2
  have hbounds := resolveDay_ok_bounds hd h2
  have hck := checkDayOfMonth_ok hchk h1 h2
  unfold daysInMonthSpec
  split
  · next hM => exact hck.1 hM
  · split
    · next hM =>
      have h29 := hck.2 hM
      rw [h0, jsLeapYear_some] at h29
      exact h29
    · exact hbounds.2

/-- Witness for C1: the universal part applied to the concrete parse of
`"2004-02-29"` with format `"yyyy-MM-dd"`. -/
theorem C1_final_calendar_check_witness :
    TimeParser.parse ak_culture (TimeParser.compile ak_culture "yyyy-MM-dd") "2004-02-29" =
      .ok [some 2004, some 2, some 29, some 0, some 0, some 0, some 0, some 1, some (-1)] ∧
    (29 : Int) ≤ daysInMonthSpec 2004 2 :=
  ⟨rfl, C1_final_calendar_check.1 ak_culture (TimeParser.compile ak_culture "yyyy-MM-dd")
    "2004-02-29"
    [some 2004, some 2, some 29, some 0, some 0, some 0, some 0, some 1, some (-1)]
    2004 2 29 rfl rfl rfl rfl⟩

/-- C5: out-of-range captured values are rejected with a range error
naming the offending field and value — month 0 and 13, day 0 and 32,
hour 24, minute 60 and second 60 each fail under their single-field
formats — and an input that does not match the compiled pattern aborts
the parse with a match error; in every failing case the caller receives
an `Except.error` and no record. -/
theorem C5_range_rejection :
    strptime ak_culture "0" "M" = .error "Month is out of range: 0" ∧
    strptime ak_culture "13" "M" = .error "Month is out of range: 13" ∧
    strptime ak_culture "0" "d" = .error "Day is out of range: 0" ∧
    strptime ak_culture "32" "d" = .error "Day is out of range: 32" ∧
    strptime ak_culture "24" "H" = .error "Hour is out of range: 24" ∧
    strptime ak_culture "60" "m" = .error "Minute is out of range: 60" ∧
    strptime ak_culture "60" "s" = .error "Second is out of range: 60" ∧
    strptime ak_culture "x" "M" =
      .error "Time data did not match format: data=x, format=M" :=
  ⟨rfl, rfl, rfl, rfl, rfl, rfl, rfl, rfl⟩

/-- C2: evaluation of the misalignment defect.  The format
`"ddd MMMM M"` compiles, its unknown token `ddd` consumes an expected
slot without contributing a capture group, so the `MMMM` slot receives
the numeric capture `"5"`; the name lookup fails (`_indexOf` yields -1)
and the successful parse returns a record whose month slot is 0 —
outside the documented range [1,12]. -/
theorem C2_month_zero_escape :
    (TimeParser.compile ak_culture "ddd MMMM M").expected = ["ddd", "MMMM", "M"] ∧
    strptime ak_culture "undefined January 5" "ddd MMMM M" =
      .ok [some 1900, some 0, some 1, some 0, some 0, some 0, some 0, some 1, some (-1)] :=
  ⟨rfl, rfl⟩

/-- C8: evaluation of `strftime` on the formats its own test-suite uses.
The unrecognized directive `%q` is echoed verbatim (not dropped to the
empty string), and a lone trailing `%` is echoed without any error. -/
theorem C8_strftime_echoes :
    strftime ⟨2006, 9, 25, 14, 30, 59⟩ "%Y-%m-%d %q %H:%M:%S" =
      "2006-10-25 %q 14:30:59" ∧
    strftime ⟨2006, 9, 25, 14, 30, 59⟩ "%Y-%m-%d %H:%M:%S%" =
      "2006-10-25 14:30:59%" :=
  ⟨rfl, rfl⟩

/-- C7 counterexample: the claim says a format containing an
unrecognized directive token fails compilation with a `FormatError`; in
fact `TimeParser` construction completes on `"ddd"` and produces a
compiled pattern (the literal text `undefined`), so no error is raised
at compilation time — including at the `new RegExp` step. -/
theorem C7_compile_total_counterexample :
    TimeParser.compile ak_culture "ddd" =
      { format := "ddd", pattern := undefinedLits, expected := ["ddd"] } ∧
    TimeParser.construct ak_culture "ddd" =
      .ok { format := "ddd", pattern := undefinedLits, expected := ["ddd"] } :=
  ⟨rfl, rfl⟩

theorem parensDepth_cons_generic (c : Char) (rest : List Char) (d : Nat)
    (h1 : c ≠ '\\') (h2 : c ≠ '[') (h3 : c ≠ '(') (h4 : c ≠ ')') :
    parensDepth (c :: rest) d false = parensDepth rest d false := by
  conv_lhs => rw [parensDepth.eq_def]
  simp only [h1, h2, h3, h4, if_neg, ite_false, Bool.false_eq_true]

theorem parensDepth_cons_inclass (c : Char) (rest : List Char) (d : Nat)
    (h1 : c ≠ '\\') (h2 : c ≠ ']') :
    parensDepth (c :: rest) d true = parensDepth rest d true := by
  conv_lhs => rw [parensDepth.eq_def]
  simp only [h1, h2, if_neg, ite_false, if_true]

theorem parensDepth_undefined (rest : List Char) (d : Nat) (b : Bool) :
    parensDepth ("undefined".toList ++ rest) d b = parensDepth rest d b := by
  rw [show "undefined".toList ++ rest =
        'u' :: 'n' :: 'd' :: 'e' :: 'f' :: 'i' :: 'n' :: 'e' :: 'd' :: rest from rfl]
  cases b
  · rw [parensDepth_cons_generic 'u' _ d (by decide) (by decide) (by decide) (by decide),
        parensDepth_cons_generic 'n' _ d (by decide) (by decide) (by decide) (by decide),
        parensDepth_cons_generic 'd' _ d (by decide) (by decide) (by decide) (by decide),
        parensDepth_cons_generic 'e' _ d (by decide) (by decide) (by decide) (by decide),
        parensDepth_cons_generic 'f' _ d (by decide) (by decide) (by decide) (by decide),
        parensDepth_cons_generic 'i' _ d (by decide) (by decide) (by decide) (by decide),
        parensDepth_cons_generic 'n' _ d (by decide) (by decide) (by decide) (by decide),
        parensDepth_cons_generic 'e' _ d (by decide) (by decide) (by decide) (by decide),
        parensDepth_cons_generic 'd' _ d (by decide) (by decide) (by decide) (by decide)]
  · rw [parensDepth_cons_inclass 'u' _ d (by decide) (by decide),
        parensDepth_cons_inclass 'n' _ d (by decide) (by decide),
        parensDepth_cons_inclass 'd' _ d (by decide) (by decide),
        parensDepth_cons_inclass 'e' _ d (by decide) (by decide),
        parensDepth_cons_inclass 'f' _ d (by decide) (by decide),
        parensDepth_cons_inclass 'i' _ d (by decide) (by decide),
        parensDepth_cons_inclass 'n' _ d (by decide) (by decide),
        parensDepth_cons_inclass 'e' _ d (by decide) (by decide),
        parensDepth_cons_inclass 'd' _ d (by decide) (by decide)]

/-- C7 (amended): no `FormatError` exists in the constructor, and
unterminated or unrecognized directive tokens never make construction
fail — a scanner-matched token with no table entry is spliced as the
literal text `undefined` (which, as the universal conjunct shows, can
never trip the regular-expression validity check), a dangling literal
character such as a trailing `%` stays in the pattern, and formats such
as `"ddd"` and `"yyyy-MM-dd%"` construct successfully and fail only at
parse time with a match error.  The only construction-time failure is
the `SyntaxError` of the `new RegExp` step when the format's literal
text makes the generated pattern invalid — e.g. format `"("` — which is
unrelated to directive-token validation. -/
theorem C7_no_format_error :
    (∀ (rest : List Char) (d : Nat) (b : Bool),
        parensDepth ("undefined".toList ++ rest) d b = parensDepth rest d b) ∧
    TimeParser.construct ak_culture "ddd" =
      .ok { format := "ddd", pattern := undefinedLits, expected := ["ddd"] } ∧
    strptime ak_culture "25" "ddd" =
      .error "Time data did not match format: data=25, format=ddd" ∧
    TimeParser.construct ak_culture "yyyy-MM-dd%" =
      .ok { format := "yyyy-MM-dd%",
            pattern := [Item.grp .digits4, Item.lit '-', Item.grp .digits12, Item.lit '-',
                        Item.grp .digits12, Item.lit '%'],
            expected := ["yyyy", "M", "d"] } ∧
    strptime ak_culture "2006-10-25" "yyyy-MM-dd%" =
      .error "Time data did not match format: data=2006-10-25, format=yyyy-MM-dd%" ∧
    TimeParser.construct ak_culture "(" = .error "SyntaxError: Invalid regular expression" :=
  ⟨parensDepth_undefined, rfl, rfl, rfl, rfl, rfl⟩

theorem emitTok_ddd (L : Culture) (r : List Item × List String) :
    emitTok L "ddd" r = (undefinedLits ++ r.1, "ddd" :: r.2) := rfl

theorem emitTok_dddd (L : Culture) (r : List Item × List String) :
    emitTok L "dddd" r = (undefinedLits ++ r.1, "dddd" :: r.2) := rfl

theorem compileScan_ddd (L : Culture) (x : Char) (xs : List Char) (hxd : x ≠ 'd') :
    compileScan L ('d' :: 'd' :: 'd' :: x :: xs) =
      (undefinedLits ++ (compileScan L (x :: xs)).1,
       "ddd" :: (compileScan L (x :: xs)).2) := by
  conv_lhs => rw [compileScan.eq_def]
  simp only [reduceIte]
  split
  · next heq =>
      injection heq with h1 h2
      injection h2 with h3 h4
      injection h4 with h5 h6
      exact absurd h5 hxd
  · next heq =>
      injection heq with h1 h2
      injection h2 with h3 h4
      rw [← h4, emitTok_ddd]
  · next hno2 hno1 heq =>
      injection heq with h1 h2
      exact absurd h2.symm (fun h => hno1 (x :: xs) h)
  · next hno3 hno2 hno1 =>
      exact absurd rfl (fun h => hno2 (x :: xs) h)

theorem compileScan_dddd (L : Culture) (rest : List Char) :
    compileScan L ('d' :: 'd' :: 'd' :: 'd' :: rest) =
      (undefinedLits ++ (compileScan L rest).1, "dddd" :: (compileScan L rest).2) := by
  conv_lhs => rw [compileScan.eq_def]
  simp only [reduceIte]
  rw [emitTok_dddd]

/-- C10 counterexample: `TimeParser` construction is not total — for
format `"("` the scanner keeps the parenthesis as literal text, the
constructor assembles the pattern source `"^($"`, whose parenthesis is
unmatched, and the `new RegExp` step raises a `SyntaxError` instead of
returning a compiled parser. -/
theorem C10_construction_throws :
    (TimeParser.compile ak_culture "(").pattern = [Item.lit '('] ∧
    regexSource [Item.lit '('] = "^($".toList ∧
    TimeParser.construct ak_culture "(" = .error "SyntaxError: Invalid regular expression" :=
  ⟨rfl, rfl, rfl⟩

/-- C10 (amended): construction performs no directive validation, and a
scanner-matched token absent from the directive table does not raise an
error: the three- and four-letter day tokens `ddd` and `dddd` (which are
not collapsed to `d`) have no `DIRECTIVE_PATTERNS` entry, so the failed
lookup is spliced into the compiled pattern as the literal text
`undefined` while the token is still appended to the
expected-directives list, and such formats construct successfully —
construction can fail only at the final `new RegExp` step, with a
`SyntaxError`, when the format's literal text yields an invalid
pattern. -/
theorem C10_unknown_directive_spliced :
    (∀ (L : Culture) (x : Char) (xs : List Char), x ≠ 'd' →
        compileScan L ('d' :: 'd' :: 'd' :: x :: xs) =
          (undefinedLits ++ (compileScan L (x :: xs)).1,
           "ddd" :: (compileScan L (x :: xs)).2)) ∧
    (∀ (L : Culture) (rest : List Char),
        compileScan L ('d' :: 'd' :: 'd' :: 'd' :: rest) =
          (undefinedLits ++ (compileScan L rest).1,
           "dddd" :: (compileScan L rest).2)) ∧
    (∀ L : Culture, DIRECTIVE_PATTERNS L "ddd" = none ∧
        DIRECTIVE_PATTERNS L "dddd" = none) ∧
    TimeParser.construct ak_culture "ddd" =
      .ok { format := "ddd", pattern := undefinedLits, expected := ["ddd"] } ∧
    TimeParser.construct ak_culture "dddd" =
      .ok { format := "dddd", pattern := undefinedLits, expected := ["dddd"] } :=
  ⟨compileScan_ddd, compileScan_dddd, fun _ => ⟨rfl, rfl⟩, rfl, rfl⟩

/-- Witness for C10: the `ddd` splicing rule applied at a concrete
format tail. -/
theorem C10_unknown_directive_spliced_witness :
    (' ' : Char) ≠ 'd' ∧
    compileScan ak_culture ('d' :: 'd' :: 'd' :: ' ' :: ['M']) =
      (undefinedLits ++ (compileScan ak_culture (' ' :: ['M'])).1,
       "ddd" :: (compileScan ak_culture (' ' :: ['M'])).2) :=
  ⟨by decide, C10_unknown_directive_spliced.1 ak_culture ' ' ['M'] (by decide)⟩

theorem midnightAdjust_some (n : Int) :
    midnightAdjust (some n) = some (if n = 12 then 0 else n) := by
  unfold midnightAdjust jsEq
  by_cases h : n = 12 <;> simp [h]

theorem resolveHour_H_ok (L : Culture) (data : List (String × String)) (s : String)
    (n : Int) (hH : getData data "H" = some s) (hn : parseIntJS s = some n)
    (hle : n ≤ 23) : resolveHour L data = .ok (some n) := by
  unfold resolveHour
  rw [hH]
  dsimp only
  rw [hn]
  rw [if_neg]
  simp only [jsGt, decide_eq_true_eq]
  omega

theorem resolveHour_H_err (L : Culture) (data : List (String × String)) (s : String)
    (n : Int) (hH : getData data "H" = some s) (hn : parseIntJS s = some n)
    (hgt : 23 < n) :
    resolveHour L data = .error ("Hour is out of range: " ++ toString n) := by
  unfold resolveHour
  rw [hH]
  dsimp only
  rw [hn]
  rw [if_pos]
  · rfl
  · simp only [jsGt, decide_eq_true_eq]
    omega

theorem resolveHour_h_err (L : Culture) (data : List (String × String)) (s : String)
    (n : Int) (hH : getData data "H" = none) (hh : getData data "h" = some s)
    (hn : parseIntJS s = some n) (hout : n < 1 ∨ 12 < n) :
    resolveHour L data = .error ("Hour is out of range: " ++ toString n) := by
  unfold resolveHour
  rw [hH]
  dsimp only
  rw [hh]
  dsimp only
  rw [hn]
  rw [if_pos]
  · rfl
  · simp only [jsLt, jsGt, Bool.or_eq_true, decide_eq_true_eq]
    omega

theorem resolveHour_h_ok (L : Culture) (data : List (String × String)) (s : String)
    (n : Int) (hH : getData data "H" = none) (hh : getData data "h" = some s)
    (hn : parseIntJS s = some n) (h1 : 1 ≤ n) (h2 : n ≤ 12) :
    resolveHour L data =
      .ok (some ((if n = 12 then 0 else n) +
        (if getData data "tt" = some L.pm then 12 else 0))) := by
  unfold resolveHour
  rw [hH]
  dsimp only
  rw [hh]
  dsimp only
  rw [hn]
  rw [if_neg]
  · cases htt : getData data "tt" with
    | none =>
      dsimp only
      rw [midnightAdjust_some]
      have hne : ¬ (none : Option String) = some L.pm := by simp
      rw [if_neg hne]
      norm_num
    | some t =>
      dsimp only
      by_cases hpm : t = L.pm
      · rw [if_pos hpm, midnightAdjust_some]
        have heq : (some t : Option String) = some L.pm := by rw [hpm]
        rw [if_pos heq]
        simp [jsAdd]
      · rw [if_neg hpm, midnightAdjust_some]
        have hne : ¬ (some t : Option String) = some L.pm := by simpa using hpm
        rw [if_neg hne]
        norm_num
  · simp only [jsLt, jsGt, Bool.or_eq_true, decide_eq_true_eq]
    omega

/-- C3: when the 24-hour directive is captured, its value is validated
against [0,23] (captures are digit strings, so only the upper bound can
fail) and used directly; otherwise, when the 12-hour directive is
captured, its value is validated against [1,12], 12 is mapped to 0
before any meridiem adjustment, and 12 is added exactly when the
captured meridiem marker equals the locale's PM string — so hour 12 with
the AM marker resolves to 0, hour 12 with the PM marker to 12, and
`"4:25 PM"` to hour 16. -/
theorem C3_hour_resolution :
    (∀ (L : Culture) (data : List (String × String)) (s : String) (n : Int),
        getData data "H" = some s → parseIntJS s = some n →
        (n ≤ 23 → resolveHour L data = .ok (some n)) ∧
        (23 < n → resolveHour L data = .error ("Hour is out of range: " ++ toString n))) ∧
    (∀ (L : Culture) (data : List (String × String)) (s : String) (n : Int),
        getData data "H" = none → getData data "h" = some s → parseIntJS s = some n →
        ((n < 1 ∨ 12 < n) →
          resolveHour L data = .error ("Hour is out of range: " ++ toString n)) ∧
        (1 ≤ n → n ≤ 12 →
          resolveHour L data =
            .ok (some ((if n = 12 then 0 else n) +
              (if getData data "tt" = some L.pm then 12 else 0))))) ∧
    strptime ak_culture "12:00 AM" "h:mm tt" =
      .ok [some 1900, some 1, some 1, some 0, some 0, some 0, some 0, some 1, some (-1)] ∧
    strptime ak_culture "12:00 PM" "h:mm tt" =
      .ok [some 1900, some 1, some 1, some 12, some 0, some 0, some 0, some 1, some (-1)] ∧
    strptime ak_culture "4:25 PM" "h:mm tt" =
      .ok [some 1900, some 1, some 1, some 16, some 25, some 0, some 0, some 1, some (-1)] := by
  refine ⟨?_, ?_, rfl, rfl, rfl⟩
  · intro L data s n hH hn
    exact ⟨resolveHour_H_ok L data s n hH hn, resolveHour_H_err L data s n hH hn⟩
  · intro L data s n hH hh hn
    exact ⟨resolveHour_h_err L data s n hH hh hn,
           resolveHour_h_ok L data s n hH hh hn⟩

/-- Witness for C3: the 12-hour rule applied to a concrete data mapping
with hour capture `"12"` and the PM marker. -/
theorem C3_hour_resolution_witness :
    getData [("h", "12"), ("tt", "PM")] "H" = none ∧
    resolveHour ak_culture [("h", "12"), ("tt", "PM")] =
      .ok (some ((if (12 : Int) = 12 then 0 else 12) +
        (if getData [("h", "12"), ("tt", "PM")] "tt" = some ak_culture.pm
         then 12 else 0))) :=
  ⟨rfl, (C3_hour_resolution.2.1 ak_culture [("h", "12"), ("tt", "PM")] "12" 12
    rfl rfl rfl).2 (by norm_num) (by norm_num)⟩

theorem resolveYear_yyyy (data : List (String × String)) (s : String) (n : Int)
    (h4 : getData data "yyyy" = some s) (hn : parseIntJS s = some n) :
    resolveYear data = some n := by
  unfold resolveYear
  rw [h4]
  dsimp only
  exact hn

theorem resolveYear_yy_low (data : List (String × String)) (s : String) (v : Int)
    (h4 : getData data "yyyy" = none) (h2 : getData data "yy" = some s)
    (hn : parseIntJS s = some v) (hv : v < 68) :
    resolveYear data = some (2000 + v) := by
  unfold resolveYear
  rw [h4]
  dsimp only
  rw [h2]
  dsimp only
  rw [hn]
  rw [if_pos]
  · simp only [jsAdd, Option.map_some', Option.some.injEq]
    omega
  · simp only [jsLt, decide_eq_true_eq]
    omega

theorem resolveYear_yy_high (data : List (String × String)) (s : String) (v : Int)
    (h4 : getData data "yyyy" = none) (h2 : getData data "yy" = some s)
    (hn : parseIntJS s = some v) (hv1 : 68 ≤ v) (hv2 : v < 100) :
    resolveYear data = some (1900 + v) := by
  unfold resolveYear
  rw [h4]
  dsimp only
  rw [h2]
  dsimp only
  rw [hn]
  rw [if_neg, if_pos]
  · simp only [jsAdd, Option.map_some', Option.some.injEq]
    omega
  · simp only [jsLt, decide_eq_true_eq]
    omega
  · simp only [jsLt, decide_eq_true_eq]
    omega

theorem getData_zip_none {k : String} :
    ∀ (exp caps : List String), ¬ k ∈ exp → getData (exp.zip caps) k = none
  | [], _, _ => rfl
  | _ :: _, [], _ => rfl
  | e :: exp', c :: caps', h => by
      have hne : e ≠ k := fun he => h (he ▸ List.mem_cons_self e exp')
      have hrec := getData_zip_none exp' caps' (fun hm => h (List.mem_cons_of_mem e hm))
      simp only [List.zip_cons_cons, getData]
      rw [show List.zipWith Prod.mk exp' caps' = exp'.zip caps' from rfl, hrec]
      simp [hne]

/-- C4: a captured four-digit year is used verbatim; a captured
two-digit year value `v` is windowed to `2000 + v` when `v < 68` and to
`1900 + v` when `v` is in [68,99] (`"06"` resolves to 2006, `"70"` to
1970, `"67"` to 2067); when no year directive is present the year
defaults to 1900. -/
theorem C4_year_windowing :
    (∀ (data : List (String × String)) (s : String) (n : Int),
        getData data "yyyy" = some s → parseIntJS s = some n →
        resolveYear data = some n) ∧
    (∀ (data : List (String × String)) (s : String) (v : Int),
        getData data "yyyy" = none → getData data "yy" = some s →
        parseIntJS s = some v →
        (v < 68 → resolveYear data = some (2000 + v)) ∧
        (68 ≤ v → v < 100 → resolveYear data = some (1900 + v))) ∧
    (∀ (L : Culture) (tp : TimeParser) (input : String) (t : List JSNum),
        TimeParser.parse L tp input = .ok t →
        ¬ "yyyy" ∈ tp.expected → ¬ "yy" ∈ tp.expected →
        t[0]? = some (some 1900)) ∧
    strptime ak_culture "06" "yy" =
      .ok [some 2006, some 1, some 1, some 0, some 0, some 0, some 0, some 1, some (-1)] ∧
    strptime ak_culture "70" "yy" =
      .ok [some 1970, some 1, some 1, some 0, some 0, some 0, some 0, some 1, some (-1)] ∧
    strptime ak_culture "67" "yy" =
      .ok [some 2067, some 1, some 1, some 0, some 0, some 0, some 0, some 1, some (-1)] ∧
    strptime ak_culture "7" "H" =
      .ok [some 1900, some 1, some 1, some 7, some 0, some 0, some 0, some 1, some (-1)] := by
  refine ⟨resolveYear_yyyy, ?_, ?_, rfl, rfl, rfl, rfl⟩
  · intro data s v h4 h2 hn
    exact ⟨resolveYear_yy_low data s v h4 h2 hn,
           resolveYear_yy_high data s v h4 h2 hn⟩
  · intro L tp input t hp hy4 hy2
    obtain ⟨caps, hm, hex⟩ := parse_ok_inv hp
    obtain ⟨month, day, hour, minute, second, _, _, _, _, _, _, ht⟩ :=
      extractFields_ok_inv hex
    subst ht
    have g4 : getData (tp.expected.zip caps) "yyyy" = none :=
      getData_zip_none tp.expected caps hy4
    have g2 : getData (tp.expected.zip caps) "yy" = none :=
      getData_zip_none tp.expected caps hy2
    simp only [List.getElem?_cons_zero, Option.some.injEq]
    unfold resolveYear
    rw [g4]
    dsimp only
    rw [g2]

/-- Witness for C4: the two-digit windowing rule applied at the concrete
data mapping with year capture `"06"`. -/
theorem C4_year_windowing_witness :
    (6 : Int) < 68 ∧ resolveYear [("yy", "06")] = some (2000 + 6) :=
  ⟨by norm_num,
   (C4_year_windowing.2.1 [("yy", "06")] "06" 6 rfl rfl rfl).1 (by norm_num)⟩

theorem sepToSpace_cons_generic (c : Char) (cs : List Char)
    (h : c ≠ '%' ∨ (cs.head? ≠ some 't' ∧ cs.head? ≠ some 'n')) :
    sepToSpace (c :: cs) = (if isJsWS c then ' ' else c) :: sepToSpace cs := by
  conv_lhs => rw [sepToSpace.eq_def]
  split
  · next heq => exact absurd heq (by simp)
  · next heq =>
      injection heq with h1 h2
      subst h1
      rcases h with h | ⟨ht', _⟩
      · exact absurd rfl h
      · rw [h2] at ht'
        exact absurd rfl ht'
  · next heq =>
      injection heq with h1 h2
      subst h1
      rcases h with h | ⟨_, hn'⟩
      · exact absurd rfl h
      · rw [h2] at hn'
        exact absurd rfl hn'
  · next heq =>
      injection heq with h1 h2
      subst h1
      subst h2
      rfl

theorem sepTok_to_space {t : List Char} (ht : SepTok t) (l : List Char) :
    sepToSpace (t ++ l) = ' ' :: sepToSpace l := by
  cases ht with
  | ws c hc =>
      have hcp : c ≠ '%' := by
        intro h
        rw [h] at hc
        exact absurd hc (by decide)
      rw [List.cons_append, List.nil_append,
          sepToSpace_cons_generic c l (Or.inl hcp), if_pos hc]
  | pt => simp [sepToSpace]
  | pn => simp [sepToSpace]

theorem sepRun_ne_nil {r : List Char} (hr : SepRun r) :
    ∃ c cs, r = c :: cs ∧ (isJsWS c = true ∨ c = '%') := by
  induction hr with
  | single ht =>
      cases ht with
      | ws c hc => exact ⟨c, [], rfl, Or.inl hc⟩
      | pt => exact ⟨'%', ['t'], rfl, Or.inr rfl⟩
      | pn => exact ⟨'%', ['n'], rfl, Or.inr rfl⟩
  | cons ht _ ih =>
      cases ht with
      | ws c hc => exact ⟨c, _, rfl, Or.inl hc⟩
      | pt => exact ⟨'%', _, rfl, Or.inr rfl⟩
      | pn => exact ⟨'%', _, rfl, Or.inr rfl⟩

theorem sepRun_to_spaces {r : List Char} (hr : SepRun r) (l : List Char) :
    ∃ k, 1 ≤ k ∧ sepToSpace (r ++ l) = List.replicate k ' ' ++ sepToSpace l := by
  induction hr with
  | single ht => exact ⟨1, le_rfl, by rw [sepTok_to_space ht l]; rfl⟩
  | cons ht hr' ih =>
      obtain ⟨k, hk, heq⟩ := ih
      refine ⟨k + 1, by omega, ?_⟩
      rw [List.append_assoc, sepTok_to_space ht, heq]
      rfl

theorem sepToSpace_append_aux (x : List Char) (ht : x.head? ≠ some 't')
    (hn : x.head? ≠ some 'n') :
    ∀ (n : Nat) (a : List Char), a.length ≤ n →
      sepToSpace (a ++ x) = sepToSpace a ++ sepToSpace x := by
  intro n
  induction n with
  | zero =>
      intro a ha
      have : a = [] := List.eq_nil_of_length_eq_zero (Nat.le_zero.mp ha)
      subst this
      simp [sepToSpace]
  | succ n ih =>
      intro a ha
      cases a with
      | nil => simp [sepToSpace]
      | cons c a' =>
        by_cases hc : c = '%'
        · subst hc
          cases a' with
          | nil =>
              rw [List.cons_append, List.nil_append,
                  sepToSpace_cons_generic '%' x (Or.inr ⟨ht, hn⟩)]
              norm_num [sepToSpace, isJsWS]
          | cons c2 a'' =>
              by_cases h2t : c2 = 't'
              · subst h2t
                simp only [List.cons_append, sepToSpace, List.append_eq]
                rw [ih a'' (by simp at ha; omega)]
              · by_cases h2n : c2 = 'n'
                · subst h2n
                  simp only [List.cons_append, sepToSpace, List.append_eq]
                  rw [ih a'' (by simp at ha; omega)]
                · have hgl : sepToSpace ('%' :: (c2 :: a'') ++ x) =
                      (if isJsWS '%' then ' ' else '%') :: sepToSpace ((c2 :: a'') ++ x) := by
                    rw [List.cons_append]
                    exact sepToSpace_cons_generic '%' ((c2 :: a'') ++ x)
                      (Or.inr ⟨by simp [h2t], by simp [h2n]⟩)
                  have hgr : sepToSpace ('%' :: c2 :: a'') =
                      (if isJsWS '%' then ' ' else '%') :: sepToSpace (c2 :: a'') :=
                    sepToSpace_cons_generic '%' (c2 :: a'')
                      (Or.inr ⟨by simp [h2t], by simp [h2n]⟩)
                  rw [hgl, hgr, ih (c2 :: a'') (by simp at ha ⊢; omega)]
                  rfl
        · have hgl : sepToSpace (c :: a' ++ x) =
              (if isJsWS c then ' ' else c) :: sepToSpace (a' ++ x) := by
            rw [List.cons_append]
            exact sepToSpace_cons_generic c (a' ++ x) (Or.inl hc)
          have hgr : sepToSpace (c :: a') =
              (if isJsWS c then ' ' else c) :: sepToSpace a' :=
            sepToSpace_cons_generic c a' (Or.inl hc)
          rw [hgl, hgr, ih a' (by simp at ha; omega)]
          rfl

theorem sepToSpace_append (a x : List Char) (ht : x.head? ≠ some 't')
    (hn : x.head? ≠ some 'n') :
    sepToSpace (a ++ x) = sepToSpace a ++ sepToSpace x :=
  sepToSpace_append_aux x ht hn a.length a le_rfl

theorem squeezeAux_replicate (v : List Char) :
    ∀ (k : Nat), 1 ≤ k → ∀ (b : Bool),
      squeezeAux b (List.replicate k ' ' ++ v) = squeezeAux b (' ' :: v) := by
  intro k
  induction k with
  | zero => omega
  | succ k ih =>
      intro _ b
      by_cases hk : 1 ≤ k
      · have hv : List.replicate (k + 1) ' ' ++ v = ' ' :: (List.replicate k ' ' ++ v) := rfl
        rw [hv]
        simp only [squeezeAux, reduceIte]
        rw [ih hk true]
        simp [squeezeAux]
      · have hk0 : k = 0 := by omega
        subst hk0
        rfl

theorem squeezeAux_congr_spaces (v : List Char) (k : Nat) (hk : 1 ≤ k) :
    ∀ (u : List Char) (b : Bool),
      squeezeAux b (u ++ (List.replicate k ' ' ++ v)) = squeezeAux b (u ++ (' ' :: v)) := by
  intro u
  induction u with
  | nil =>
      intro b
      exact squeezeAux_replicate v k hk b
  | cons c u' ih =>
      intro b
      by_cases hc : c = ' '
      · subst hc
        simp only [List.cons_append, squeezeAux, reduceIte, List.append_eq]
        cases b
        · simp only [Bool.false_eq_true, if_false]
          rw [ih true]
        · simp only [if_true]
          rw [ih true]
      · simp only [List.cons_append, squeezeAux, hc, if_neg, ite_false, List.append_eq]
        rw [ih false]

theorem normalizeWS_sepRun (a r b : List Char) (hr : SepRun r) :
    normalizeWS (a ++ r ++ b) = normalizeWS (a ++ ' ' :: b) := by
  obtain ⟨c0, cs0, hR, hc0⟩ := sepRun_ne_nil hr
  have hct : c0 ≠ 't' := by
    rcases hc0 with h | h
    · intro he
      rw [he] at h
      exact absurd h (by decide)
    · intro he
      rw [he] at h
      exact absurd h (by decide)
  have hcn : c0 ≠ 'n' := by
    rcases hc0 with h | h
    · intro he
      rw [he] at h
      exact absurd h (by decide)
    · intro he
      rw [he] at h
      exact absurd h (by decide)
  have hrt : (r ++ b).head? ≠ some 't' := by
    rw [hR]
    simp only [List.cons_append, List.head?_cons, ne_eq, Option.some.injEq]
    exact hct
  have hrn : (r ++ b).head? ≠ some 'n' := by
    rw [hR]
    simp only [List.cons_append, List.head?_cons, ne_eq, Option.some.injEq]
    exact hcn
  obtain ⟨k, hk, hsp⟩ := sepRun_to_spaces hr b
  unfold normalizeWS
  rw [List.append_assoc, sepToSpace_append a (r ++ b) hrt hrn, hsp]
  have h2 : sepToSpace (a ++ ' ' :: b) = sepToSpace a ++ sepToSpace (' ' :: b) :=
    sepToSpace_append a (' ' :: b) (by simp) (by simp)
  have h3 : sepToSpace (' ' :: b) = ' ' :: sepToSpace b := by
    rw [sepToSpace_cons_generic ' ' b (Or.inl (by decide))]
    rfl
  rw [h2, h3]
  exact squeezeAux_congr_spaces (sepToSpace b) k hk (sepToSpace a) false

/-- C9: compilation normalises whitespace — any nonempty run of
whitespace-equivalent separator tokens (`\s` characters, `%t`, `%n`)
collapses to a single space before scanning, so `normalizeWS` maps a
format with such a run to the same result as the format with a single
space, and two formats differing only in separator spacing compile to
the same pattern and the same expected-directives list; the single
space left in the pattern is what the input must then match, which is
how parsing forgives spacing differences in the format. -/
theorem C9_whitespace_collapse :
    (∀ (a r b : List Char), SepRun r →
        normalizeWS (a ++ r ++ b) = normalizeWS (a ++ ' ' :: b)) ∧
    (∀ (L : Culture) (a r b : List Char), SepRun r →
        (TimeParser.compile L (String.mk (a ++ r ++ b))).pattern =
          (TimeParser.compile L (String.mk (a ++ ' ' :: b))).pattern ∧
        (TimeParser.compile L (String.mk (a ++ r ++ b))).expected =
          (TimeParser.compile L (String.mk (a ++ ' ' :: b))).expected) := by
  refine ⟨normalizeWS_sepRun, ?_⟩
  intro L a r b hr
  unfold TimeParser.compile
  rw [show (String.mk (a ++ r ++ b)).toList = a ++ r ++ b from rfl,
      show (String.mk (a ++ ' ' :: b)).toList = a ++ ' ' :: b from rfl,
      normalizeWS_sepRun a r b hr]
  exact ⟨rfl, rfl⟩

/-- Witness for C9: a double space between the `yyyy` and `MM`
directives normalises like a single space. -/
theorem C9_whitespace_collapse_witness :
    SepRun [' ', ' '] ∧
    normalizeWS ("yyyy".toList ++ [' ', ' '] ++ "MM".toList) =
      normalizeWS ("yyyy".toList ++ ' ' :: "MM".toList) :=
  ⟨SepRun.cons (SepTok.ws ' ' (by decide)) (SepRun.single (SepTok.ws ' ' (by decide))),
   C9_whitespace_collapse.1 "yyyy".toList [' ', ' '] "MM".toList
     (SepRun.cons (SepTok.ws ' ' (by decide)) (SepRun.single (SepTok.ws ' ' (by decide))))⟩

